import Mathlib

set_option maxHeartbeats 1000000

/-
  A shallow embedding of the BIQL query-engine core (lexer/parser field
  handling, dataset index, and evaluator).  The repository ships only the
  test suite for these modules; the engine itself (biql/parser.py,
  biql/evaluator.py, biql/dataset.py) is not present, so every definition
  below is modelled from the specification (spec.md §3, §4.2, §4.3, §7),
  faithful to its words, and checked against the behaviours the test suite
  pins down.  Features no claim touches (ORDER BY, FORMAT, LIKE, regex and
  wildcard matching, nested metadata subscripts, SUM/AVG/MIN/MAX) are
  omitted from the model.
-/

namespace BiqlSpec

/-- Modelled from the spec: the heterogeneous value carried through the
evaluator (spec §9 "Dynamic value model → tagged variant"): string, number,
null, list.  Numbers are modelled as integers (the claims only exercise
integral values).  Missing: the Python value model of biql/evaluator.py. -/
inductive Value where
  | null : Value
  | str (s : String) : Value
  | num (n : Int) : Value
  | list (vs : List Value) : Value

mutual

/-- Decidable equality for values (written by hand: `Value` nests under
`List`, which the deriving handler does not support). -/
def valueDecEq : (a b : Value) → Decidable (a = b)
  | Value.null, Value.null => isTrue rfl
  | Value.null, Value.str _ => isFalse (fun h => Value.noConfusion h)
  | Value.null, Value.num _ => isFalse (fun h => Value.noConfusion h)
  | Value.null, Value.list _ => isFalse (fun h => Value.noConfusion h)
  | Value.str _, Value.null => isFalse (fun h => Value.noConfusion h)
  | Value.str s, Value.str t =>
      match decEq s t with
      | isTrue h => isTrue (congrArg Value.str h)
      | isFalse h => isFalse (fun he => h (Value.str.inj he))
  | Value.str _, Value.num _ => isFalse (fun h => Value.noConfusion h)
  | Value.str _, Value.list _ => isFalse (fun h => Value.noConfusion h)
  | Value.num _, Value.null => isFalse (fun h => Value.noConfusion h)
  | Value.num _, Value.str _ => isFalse (fun h => Value.noConfusion h)
  | Value.num m, Value.num n =>
      match decEq m n with
      | isTrue h => isTrue (congrArg Value.num h)
      | isFalse h => isFalse (fun he => h (Value.num.inj he))
  | Value.num _, Value.list _ => isFalse (fun h => Value.noConfusion h)
  | Value.list _, Value.null => isFalse (fun h => Value.noConfusion h)
  | Value.list _, Value.str _ => isFalse (fun h => Value.noConfusion h)
  | Value.list _, Value.num _ => isFalse (fun h => Value.noConfusion h)
  | Value.list vs, Value.list ws =>
      match valueListDecEq vs ws with
      | isTrue h => isTrue (congrArg Value.list h)
      | isFalse h => isFalse (fun he => h (Value.list.inj he))

/-- Decidable equality for lists of values (companion of `valueDecEq`). -/
def valueListDecEq : (as bs : List Value) → Decidable (as = bs)
  | [], [] => isTrue rfl
  | [], _ :: _ => isFalse (fun h => List.noConfusion h)
  | _ :: _, [] => isFalse (fun h => List.noConfusion h)
  | a :: as, b :: bs =>
      match valueDecEq a b, valueListDecEq as bs with
      | isTrue h1, isTrue h2 => isTrue (by rw [h1, h2])
      | isFalse h1, _ => isFalse (fun he => h1 (List.cons.inj he).1)
      | _, isFalse h2 => isFalse (fun he => h2 (List.cons.inj he).2)

end

instance : DecidableEq Value := valueDecEq

/-- Modelled from the spec: a literal appearing in a query (NUMBER or STRING
token, or a bare identifier used as a value).  Missing: biql/parser.py. -/
inductive Lit where
  | str (s : String) : Lit
  | num (n : Int) : Lit
deriving DecidableEq

/-- Modelled from the spec: `FileRecord` (spec §3): entities parsed from the
filename, merged sidecar metadata, and the three path built-ins.
Missing: biql/dataset.py. -/
structure FileRecord where
  entities : List (String × String)
  metadata : List (String × Value)
  filepath : String
  relative_path : String
  filename : String
deriving DecidableEq

/-- Modelled from the spec: `DatasetIndex` (spec §3): the indexed files plus
the participants mapping keyed by subject id.  Missing: biql/dataset.py. -/
structure DatasetIndex where
  files : List FileRecord
  participants : List (String × List (String × Value))
deriving DecidableEq

/-- First value bound to a key in an association list of strings. -/
def lookupStr (m : List (String × String)) (k : String) : Option String :=
  (m.find? (fun p => p.1 == k)).map (fun p => p.2)

/-- First value bound to a key in an association list of values. -/
def lookupVal (m : List (String × Value)) (k : String) : Option Value :=
  (m.find? (fun p => p.1 == k)).map (fun p => p.2)

/-- Uppercase a single ASCII letter, the identity elsewhere. -/
def upChar (c : Char) : Char :=
  if 97 ≤ c.toNat ∧ c.toNat ≤ 122 then Char.ofNat (c.toNat - 32) else c

/-- ASCII uppercase of a string (BIDS participants column names are ASCII,
so this is the case folding the participants lookup needs). -/
def upStr (s : String) : String := String.mk (s.toList.map upChar)

/-- Case-insensitive lookup, used for participants columns (spec §4.3:
"`participants.X` → `participants[sub][X]`, case-insensitive on X"). -/
def lookupValCI (m : List (String × Value)) (k : String) : Option Value :=
  (m.find? (fun p => upStr p.1 == upStr k)).map (fun p => p.2)

/-- Modelled from the spec: the shared field resolver (spec §4.3 "Field
resolution rules"): entity names resolve through `entities`, `metadata.X`
through the merged metadata, `participants.X` through the participants row
of the record's subject (case-insensitive on X), the three built-ins through
the record, and anything else to null.  Missing: biql/evaluator.py. -/
def resolveField (idx : DatasetIndex) (r : FileRecord) : List String → Value
  | [name] =>
      if name = "filename" then Value.str r.filename
      else if name = "filepath" then Value.str r.filepath
      else if name = "relative_path" then Value.str r.relative_path
      else ((lookupStr r.entities name).map Value.str).getD Value.null
  | [ns, x] =>
      if ns = "metadata" then (lookupVal r.metadata x).getD Value.null
      else if ns = "participants" then
        match lookupStr r.entities "sub" with
        | none => Value.null
        | some sub =>
            match (idx.participants.find? (fun p => p.1 == sub)).map (fun p => p.2) with
            | none => Value.null
            | some cols => (lookupValCI cols x).getD Value.null
      else Value.null
  | _ => Value.null

/-- Digits of a string read as a natural number (caller checks all-digit). -/
def digitsToNat (cs : List Char) : Nat :=
  cs.foldl (fun a c => a * 10 + (c.toNat - 48)) 0

/-- Whether a string is non-empty and consists only of decimal digits. -/
def allDigits (s : String) : Bool :=
  !s.toList.isEmpty && s.toList.all (fun c => c.isDigit)

/-- Parse a non-empty all-digit string as an integer; anything else fails.
This is the numeric-conversion half of the coercion lattice (spec §9). -/
def strToInt (s : String) : Option Int :=
  if allDigits s then some (Int.ofNat (digitsToNat s.toList))
  else none

/-- Left-pad a decimal string with zeros to the given width (spec §4.3 `=`:
"zero-padding the right to match the left's width"). -/
def padZeros (w : Nat) (s : String) : String :=
  String.mk (List.replicate (w - s.length) '0') ++ s

/-- Canonical string form of a value (spec §9: "everything ↔ string via
canonical print"); lists and null have no string form relevant here. -/
def valueToStr : Value → String
  | Value.null => ""
  | Value.str s => s
  | Value.num n => toString n
  | Value.list _ => ""

/-- Numeric reading of a value: numbers directly, strings via parse. -/
def valueToInt : Value → Option Int
  | Value.num n => some n
  | Value.str s => strToInt s
  | _ => none

/-- String form of a literal. -/
def litToStr : Lit → String
  | Lit.str s => s
  | Lit.num n => toString n

/-- Numeric reading of a literal. -/
def litToInt : Lit → Option Int
  | Lit.num n => some n
  | Lit.str s => strToInt s

/-- Modelled from the spec: the `=` operator (spec §4.3 (b)): exact equality
with type coercion — a numeric right against an all-digit string left is
compared as strings after zero-padding the right to the left's width (so
`sub=1` matches "01"); otherwise string equality of the canonical forms.
Null on the left falsifies the predicate.  Missing: biql/evaluator.py. -/
def eqSem (left : Value) (rhs : Lit) : Bool :=
  match left, rhs with
  | Value.null, _ => false
  | Value.str s, Lit.num n =>
      if allDigits s then s == padZeros s.length (toString n)
      else s == toString n
  | l, rhs => valueToStr l == litToStr rhs

/-- The six comparison operators of the dialect that the claims exercise. -/
inductive CompOp where
  | eq | neq | lt | lte | gt | gte
deriving DecidableEq

/-- Ordered comparison on integers for the four relational operators. -/
def intCmp : CompOp → Int → Int → Bool
  | CompOp.lt, a, b => a < b
  | CompOp.lte, a, b => a ≤ b
  | CompOp.gt, a, b => b < a
  | CompOp.gte, a, b => b ≤ a
  | _, _, _ => false

/-- Strict lexicographic order on character lists. -/
def charListLt : List Char → List Char → Bool
  | [], [] => false
  | [], _ :: _ => true
  | _ :: _, [] => false
  | a :: as, b :: bs =>
      if a < b then true else if b < a then false else charListLt as bs

/-- Ordered comparison on strings (the lexicographic fallback of the
relational operators, spec §4.3 (b)). -/
def strCmp : CompOp → String → String → Bool
  | CompOp.lt, a, b => charListLt a.toList b.toList
  | CompOp.lte, a, b => !charListLt b.toList a.toList
  | CompOp.gt, a, b => charListLt b.toList a.toList
  | CompOp.gte, a, b => !charListLt a.toList b.toList
  | _, _, _ => false

/-- Modelled from the spec: one comparison step (spec §4.3 (b)): `=` and
`!=` by `eqSem`, the relational operators try numeric comparison and fall
back to string comparison; a null left falsifies every comparison (spec §7).
Missing: biql/evaluator.py. -/
def cmpSem (op : CompOp) (left : Value) (rhs : Lit) : Bool :=
  if left = Value.null then false
  else
    match op with
    | CompOp.eq => eqSem left rhs
    | CompOp.neq => !(eqSem left rhs)
    | op =>
        match valueToInt left, litToInt rhs with
        | some a, some b => intCmp op a b
        | _, _ => strCmp op (valueToStr left) (litToStr rhs)

/-- Modelled from the spec: a boolean WHERE/HAVING expression (spec §4.2
grammar: comparisons over a field, bare-field existence, IN over a list or
a numeric range, and AND/OR/NOT).  Missing: biql/parser.py AST. -/
inductive Expr where
  | bare (path : List String) : Expr
  | cmp (path : List String) (op : CompOp) (l : Lit) : Expr
  | inList (path : List String) (ls : List Lit) : Expr
  | inRange (path : List String) (lo hi : Int) : Expr
  | and (a b : Expr) : Expr
  | or (a b : Expr) : Expr
  | not (a : Expr) : Expr
deriving DecidableEq

/-- Modelled from the spec: existence truthiness (spec §4.3 (b) "Bare field
(no op)"): true iff the resolved value is non-null and non-empty.
Missing: biql/evaluator.py. -/
def truthy : Value → Bool
  | Value.null => false
  | Value.str s => !(s == "")
  | Value.num _ => true
  | Value.list vs => !vs.isEmpty

/-- Modelled from the spec: expression evaluation over an arbitrary field
resolver (the resolver is shared between WHERE and HAVING, spec §4.3):
bare fields are existence checks, `IN list` holds when some element equals
the left under the `=` rules, `IN range` parses the left as a number, and
the connectives are standard boolean.  Missing: biql/evaluator.py. -/
def evalWith (resolve : List String → Value) : Expr → Bool
  | Expr.bare p => truthy (resolve p)
  | Expr.cmp p op l => cmpSem op (resolve p) l
  | Expr.inList p ls =>
      let v := resolve p
      if v = Value.null then false else ls.any (fun l => eqSem v l)
  | Expr.inRange p lo hi =>
      match valueToInt (resolve p) with
      | some n => decide (lo ≤ n ∧ n ≤ hi)
      | none => false
  | Expr.and a b => evalWith resolve a && evalWith resolve b
  | Expr.or a b => evalWith resolve a || evalWith resolve b
  | Expr.not a => !(evalWith resolve a)

/-- WHERE evaluation of an expression against one record (spec §4.3 (a)). -/
def evalExpr (idx : DatasetIndex) (r : FileRecord) (e : Expr) : Bool :=
  evalWith (resolveField idx r) e

/-- Modelled from the spec: the aggregate calls the claims exercise
(spec §4.3 (c)): `COUNT(*)`, `COUNT(DISTINCT f)`, and `ARRAY_AGG(f)` with an
optional inner WHERE.  Missing: biql/parser.py, biql/evaluator.py. -/
inductive Agg where
  | countStar : Agg
  | countDistinct (path : List String) : Agg
  | arrayAgg (path : List String) (inner : Option Expr) : Agg
deriving DecidableEq

/-- Modelled from the spec: a SELECT item — a field reference or an
aggregate call, each with an optional AS alias (spec §4.2).
Missing: biql/parser.py. -/
inductive SelectItem where
  | field (path : List String) (al : Option String) : SelectItem
  | agg (a : Agg) (al : Option String) : SelectItem
deriving DecidableEq

/-- Modelled from the spec: the SELECT clause (spec §4.2): the DISTINCT
flag and the ordered items.  Missing: biql/parser.py. -/
structure SelectClause where
  distinct : Bool
  items : List SelectItem
deriving DecidableEq

/-- Modelled from the spec: the query AST restricted to the clauses the
claims exercise (spec §3 `Query`; ORDER BY and FORMAT are omitted — no
claim concerns them).  Missing: biql/parser.py. -/
structure Query where
  select : Option SelectClause
  whereClause : Option Expr
  groupBy : Option (List (List String))
  having : Option Expr
deriving DecidableEq

/-- Dotted textual form of a field path, the default output column name. -/
def pathKey (p : List String) : String := String.intercalate "." p

/-- Modelled from the spec: the default short-name output column of an
unaliased aggregate (spec §4.2 "aggregates without alias also produce a
short-name column (`count`, …, `array_agg`)").  Missing: biql/parser.py. -/
def aggName : Agg → String
  | Agg.countStar => "count"
  | Agg.countDistinct _ => "count"
  | Agg.arrayAgg _ _ => "array_agg"

/-- Output column name of a SELECT item: its alias when given, otherwise
the dotted path or the aggregate short name. -/
def itemKey : SelectItem → String
  | SelectItem.field p al => al.getD (pathKey p)
  | SelectItem.agg a al => al.getD (aggName a)

/-- A result row: output column names paired with values, in column order
(spec §4.3: a row "is a mapping from column name to a scalar, list, or
nested mapping"). -/
abbrev Row := List (String × Value)

/-- First value bound to a column name in a row. -/
def lookupRow (row : Row) (k : String) : Option Value :=
  (row.find? (fun p => p.1 == k)).map (fun p => p.2)

/-- Extend a duplicate-free accumulator with one element. -/
def addFirst {α : Type} [DecidableEq α] (acc : List α) (v : α) : List α :=
  if v ∈ acc then acc else acc ++ [v]

/-- Deduplicate keeping the first occurrence of each element: the
"stable order: first-seen" collection the spec uses for auto-aggregation
and DISTINCT (spec §4.3 (c), (e)). -/
def firstSeen {α : Type} [DecidableEq α] (l : List α) : List α :=
  l.foldl addFirst []

/-- The distinct non-null values of a list in first-seen order
(spec §4.3 (c): "collect the set of distinct non-null values"). -/
def distinctNonNull (vs : List Value) : List Value :=
  firstSeen (vs.filter (fun v => decide (v ≠ Value.null)))

/-- Modelled from the spec: auto-aggregation of a non-grouped, non-aggregate
SELECT field over one partition (spec §4.3 (c)): one distinct non-null value
emits that scalar, several emit the first-seen-ordered list, none emits
null.  Missing: biql/evaluator.py. -/
def autoAgg (vs : List Value) : Value :=
  match distinctNonNull vs with
  | [] => Value.null
  | [v] => v
  | ds => Value.list ds

/-- Modelled from the spec: partition a list by a key function, groups in
first-seen key order, records in original order within each group
(spec §4.3 (c): "partition records by the tuple of group-by field
values").  Missing: biql/evaluator.py. -/
def partitionBy {α K : Type} [DecidableEq K] (f : α → K) (l : List α) :
    List (K × List α) :=
  (firstSeen (l.map f)).map (fun k => (k, l.filter (fun x => decide (f x = k))))

/-- A value as an option, dropping null: the "nulls filtered" step of the
aggregate semantics (spec §4.3 (c)). -/
def nonNullOpt : Value → Option Value
  | Value.null => none
  | v => some v

/-- Modelled from the spec: `ARRAY_AGG(f [WHERE cond])` over one partition
(spec §4.3 (c)): the `f` values, nulls filtered, of the partition records
satisfying the inner condition (all partition records when there is none).
Missing: biql/evaluator.py. -/
def arrayAggVals (idx : DatasetIndex) (recs : List FileRecord)
    (p : List String) (inner : Option Expr) : List Value :=
  (match inner with
   | none => recs
   | some c => recs.filter (fun r => evalExpr idx r c)).filterMap
    (fun r => nonNullOpt (resolveField idx r p))

/-- Modelled from the spec: the value of one SELECT item over one partition
(spec §4.3 (c)): a grouped field emits the single grouping value (taken
from the first record — all records of the partition agree), an aggregate
computes its aggregate, and any other field auto-aggregates.
Missing: biql/evaluator.py. -/
def itemValue (idx : DatasetIndex) (gps : List (List String))
    (recs : List FileRecord) : SelectItem → Value
  | SelectItem.field p _ =>
      if p ∈ gps then
        match recs with
        | [] => Value.null
        | r :: _ => resolveField idx r p
      else autoAgg (recs.map (fun r => resolveField idx r p))
  | SelectItem.agg Agg.countStar _ => Value.num recs.length
  | SelectItem.agg (Agg.countDistinct p) _ =>
      Value.num (distinctNonNull (recs.map (fun r => resolveField idx r p))).length
  | SelectItem.agg (Agg.arrayAgg p inner) _ =>
      Value.list (arrayAggVals idx recs p inner)

/-- The group row produced from one partition (spec §4.3 (c)). -/
def projectGrouped (idx : DatasetIndex) (items : List SelectItem)
    (gps : List (List String)) (recs : List FileRecord) : Row :=
  items.map (fun it => (itemKey it, itemValue idx gps recs it))

/-- Whether any SELECT item is an aggregate call (the grouping trigger of
spec §4.3 (c): "GROUP BY present OR any aggregate in SELECT"). -/
def hasAggregate (items : List SelectItem) : Bool :=
  items.any (fun it =>
    match it with
    | SelectItem.agg _ _ => true
    | _ => false)

/-- Modelled from the spec: the columns of a SELECT-less, non-grouped query
(spec §4.3 (c) "all discoverable columns"): every entity key seen in the
record list, first-seen order, followed by the three built-ins.
Missing: biql/evaluator.py. -/
def discoveredColumns (files : List FileRecord) : List String :=
  firstSeen (files.flatMap (fun r => r.entities.map (fun p => p.1))) ++
    ["filename", "filepath", "relative_path"]

/-- Output columns of a non-grouped query, as name/path pairs: the SELECT
items in order, or the discoverable columns when SELECT is absent.  An
aggregate item never reaches this projection (it forces grouping); it is
mapped to its empty-path column for totality. -/
def plainColumns (q : Query) (filtered : List FileRecord) : List (String × List String) :=
  match q.select with
  | some sel =>
      sel.items.map (fun it =>
        match it with
        | SelectItem.field p al => (al.getD (pathKey p), p)
        | SelectItem.agg a al => (al.getD (aggName a), []))
  | none => (discoveredColumns filtered).map (fun c => (c, [c]))

/-- The one row a surviving record produces in a non-grouped query
(spec §4.3 (c)). -/
def projectPlain (idx : DatasetIndex) (cols : List (String × List String))
    (r : FileRecord) : Row :=
  cols.map (fun c => (c.1, resolveField idx r c.2))

/-- The records of the index that survive the WHERE clause
(spec §4.3 (a): "keep records where it is truthy"). -/
def filteredRecords (idx : DatasetIndex) (q : Query) : List FileRecord :=
  match q.whereClause with
  | none => idx.files
  | some e => idx.files.filter (fun r => evalExpr idx r e)

/-- Whether the query is executed through the grouped pipeline. -/
def isGrouped (q : Query) : Bool :=
  q.groupBy.isSome ||
    (match q.select with
     | some sel => hasAggregate sel.items
     | none => false)

/-- The SELECT items a grouped query projects: the clause's items, or — when
SELECT is absent — the group-by fields followed by `COUNT(*)` (a modelling
choice; the spec does not describe a SELECT-less grouped query and no claim
produces one). -/
def groupedItems (q : Query) : List SelectItem :=
  match q.select with
  | some sel => sel.items
  | none =>
      ((q.groupBy.getD []).map (fun p => SelectItem.field p none)) ++
        [SelectItem.agg Agg.countStar none]

/-- The group rows of a grouped query before HAVING: one row per partition
of the surviving records by the tuple of group-by field values
(spec §4.3 (c)). -/
def groupRows (idx : DatasetIndex) (q : Query) : List Row :=
  let gps := (q.groupBy.getD [])
  (partitionBy (fun r => gps.map (resolveField idx r)) (filteredRecords idx q)).map
    (fun pr => projectGrouped idx (groupedItems q) gps pr.2)

/-- Field resolution against a produced group row, used by HAVING
(spec §4.3 (d): aggregate columns are addressed by their output column
names; a column the row does not carry resolves to null). -/
def resolveRow (row : Row) (p : List String) : Value :=
  (lookupRow row (pathKey p)).getD Value.null

/-- Modelled from the spec: the evaluator pipeline (spec §4.3): scan and
filter by WHERE, project (grouped or per-record), filter group rows by
HAVING with the shared operator semantics over the row's columns, then
deduplicate when SELECT DISTINCT is set.  ORDER BY and FORMAT are outside
the model.  Missing: biql/evaluator.py. -/
def evaluate (idx : DatasetIndex) (q : Query) : List Row :=
  let rows :=
    if isGrouped q then
      let rows0 := groupRows idx q
      match q.having with
      | none => rows0
      | some h => rows0.filter (fun row => evalWith (resolveRow row) h)
    else
      (filteredRecords idx q).map (projectPlain idx (plainColumns q (filteredRecords idx q)))
  if (q.select.map (fun sel => sel.distinct)).getD false then firstSeen rows
  else rows

/-- Modelled from the spec: the token shapes the field grammar needs
(spec §3 Token): identifiers, keyword tokens (carrying the canonical
uppercase kind name, e.g. `GROUP`), and DOT.  Missing: biql/lexer.py,
biql/parser.py. -/
inductive Token where
  | ident (s : String) : Token
  | kw (s : String) : Token
  | dot : Token
  | other : Token
deriving DecidableEq

/-- The stored field-path segment a token contributes after a namespace
qualifier: an identifier contributes its spelling, a keyword its canonical
uppercase form (spec §4.2 "Reserved-keyword fields"); other tokens none. -/
def tokenFieldName : Token → Option String
  | Token.ident s => some s
  | Token.kw s => some s
  | _ => none

/-- Remaining dotted segments of a field: after each DOT the next token is
accepted as a segment even when its kind is a keyword (spec §4.2). -/
def parseFieldTail (acc : List String) : List Token → List String × List Token
  | Token.dot :: t :: rest =>
      match tokenFieldName t with
      | some n => parseFieldTail (acc ++ [n]) rest
      | none => (acc, Token.dot :: t :: rest)
  | ts => (acc, ts)

/-- Modelled from the spec: field parsing (spec §4.2 grammar
`field := IDENTIFIER ("." IDENTIFIER)*` with the reserved-keyword rule): a
field starts with an IDENTIFIER; after a dot, a keyword token is accepted
and stored in its canonical uppercase form.  Missing: biql/parser.py. -/
def parseField : List Token → Option (List String × List Token)
  | Token.ident s :: rest => some (parseFieldTail [s] rest)
  | _ => none

/-- The integer under a row's `count` column (0 when absent), the shape the
HAVING examples and the COUNT(*) law read back. -/
def countOfRow (row : Row) : Int :=
  match lookupRow row "count" with
  | some (Value.num n) => n
  | _ => 0

/-- A file record with the given entities and name and no metadata (the
shape of the synthetic datasets the test suite builds on disk). -/
def mkRec (es : List (String × String)) (fn : String) : FileRecord :=
  { entities := es, metadata := [], filepath := fn, relative_path := fn,
    filename := fn }

/-- The six-file QSM dataset of test_qsm_reconstruction_groups_with_filenames:
sub-01 has two echoes × two parts and no acq entity; sub-02 has acq-test
with one echo × two parts. -/
def qsmIdx : DatasetIndex :=
  { files :=
      [ mkRec [("sub","01"),("echo","01"),("part","mag"),("datatype","anat"),("suffix","MEGRE"),("extension",".nii")] "m11"
      , mkRec [("sub","01"),("echo","01"),("part","phase"),("datatype","anat"),("suffix","MEGRE"),("extension",".nii")] "p11"
      , mkRec [("sub","01"),("echo","02"),("part","mag"),("datatype","anat"),("suffix","MEGRE"),("extension",".nii")] "m12"
      , mkRec [("sub","01"),("echo","02"),("part","phase"),("datatype","anat"),("suffix","MEGRE"),("extension",".nii")] "p12"
      , mkRec [("sub","02"),("acq","test"),("echo","01"),("part","mag"),("datatype","anat"),("suffix","MEGRE"),("extension",".nii")] "m21"
      , mkRec [("sub","02"),("acq","test"),("echo","01"),("part","phase"),("datatype","anat"),("suffix","MEGRE"),("extension",".nii")] "p21" ]
  , participants := [] }

/-- The SELECT clause of the QSM grouping query. -/
def qsmSel : SelectClause :=
  SelectClause.mk false
    [ SelectItem.field ["filename"] none
    , SelectItem.field ["sub"] none
    , SelectItem.field ["acq"] none
    , SelectItem.field ["part"] none
    , SelectItem.field ["echo"] none
    , SelectItem.agg Agg.countStar none ]

/-- `SELECT filename, sub, acq, part, echo, COUNT(*) WHERE (part=mag OR
part=phase) AND suffix=MEGRE GROUP BY sub, acq`. -/
def qsmQuery : Query :=
  { select := some qsmSel
  , whereClause := some (Expr.and
      (Expr.or (Expr.cmp ["part"] CompOp.eq (Lit.str "mag"))
               (Expr.cmp ["part"] CompOp.eq (Lit.str "phase")))
      (Expr.cmp ["suffix"] CompOp.eq (Lit.str "MEGRE")))
  , groupBy := some [["sub"], ["acq"]]
  , having := none }

/-- The five-file dataset of test_distinct_null_filtering_controlled_example:
three functional files carry a run entity, the two anatomical ones do not. -/
def nullRunIdx : DatasetIndex :=
  { files :=
      [ mkRec [("sub","01"),("task","rest"),("run","01"),("datatype","func")] "b11"
      , mkRec [("sub","01"),("task","rest"),("run","02"),("datatype","func")] "b12"
      , mkRec [("sub","01"),("datatype","anat")] "t11"
      , mkRec [("sub","02"),("task","rest"),("run","01"),("datatype","func")] "b21"
      , mkRec [("sub","02"),("datatype","anat")] "t21" ]
  , participants := [] }

/-- `SELECT DISTINCT run`. -/
def qAllRuns : Query :=
  { select := some (SelectClause.mk true [SelectItem.field ["run"] none])
  , whereClause := none, groupBy := none, having := none }

/-- `SELECT DISTINCT run WHERE run`. -/
def qNonNullRuns : Query :=
  { select := some (SelectClause.mk true [SelectItem.field ["run"] none])
  , whereClause := some (Expr.bare ["run"]), groupBy := none, having := none }

/-- `SELECT sub, COUNT(*) GROUP BY sub HAVING COUNT(*) > 2`. -/
def qHavingGt2 : Query :=
  { select := some (SelectClause.mk false
      [SelectItem.field ["sub"] none, SelectItem.agg Agg.countStar none])
  , whereClause := none
  , groupBy := some [["sub"]]
  , having := some (Expr.cmp ["count"] CompOp.gt (Lit.num 2)) }

/-- `SELECT sub, COUNT(*) GROUP BY sub HAVING COUNT(*) < 1`. -/
def qHavingLt1 : Query :=
  { select := some (SelectClause.mk false
      [SelectItem.field ["sub"] none, SelectItem.agg Agg.countStar none])
  , whereClause := none
  , groupBy := some [["sub"]]
  , having := some (Expr.cmp ["count"] CompOp.lt (Lit.num 1)) }

/-- One anatomical record per subject, for the reserved-keyword and IN
coercion datasets. -/
def subRec (sub : String) (fn : String) : FileRecord :=
  mkRec [("sub", sub), ("datatype", "anat")] fn

/-- The four-subject dataset with a participants table whose `group` column
is control/patient/control/patient (the fixture of the reserved-keyword and
IN-coercion tests, with a fourth subject so that selection is proper). -/
def reservedIdx : DatasetIndex :=
  { files := [subRec "01" "s1", subRec "02" "s2", subRec "03" "s3", subRec "04" "s4"]
  , participants :=
      [ ("01", [("group", Value.str "control"), ("age", Value.num 25)])
      , ("02", [("group", Value.str "patient"), ("age", Value.num 30)])
      , ("03", [("group", Value.str "control"), ("age", Value.num 35)])
      , ("04", [("group", Value.str "patient"), ("age", Value.num 40)]) ] }

/-- `sub IN [1, 2, 3]` (the lexer reads the elements as numbers). -/
def qInNums : Query :=
  { select := none
  , whereClause := some (Expr.inList ["sub"] [Lit.num 1, Lit.num 2, Lit.num 3])
  , groupBy := none, having := none }

/-- `sub IN [01, 2, 03]`, the mixed zero-padded form (modelled with the
zero-padded elements kept as strings, the other as a number, so that both
readings of the NUMBER token are covered). -/
def qInMixed : Query :=
  { select := none
  , whereClause := some (Expr.inList ["sub"] [Lit.str "01", Lit.num 2, Lit.str "03"])
  , groupBy := none, having := none }

/-- `SELECT participants.group` (field stored canonically as
`participants.GROUP`). -/
def qSelGroup : Query :=
  { select := some (SelectClause.mk false [SelectItem.field ["participants","GROUP"] none])
  , whereClause := none, groupBy := none, having := none }

/-- `SELECT sub, participants.group WHERE participants.group=control`. -/
def qWhereGroup : Query :=
  { select := some (SelectClause.mk false
      [SelectItem.field ["sub"] none, SelectItem.field ["participants","GROUP"] none])
  , whereClause := some (Expr.cmp ["participants","GROUP"] CompOp.eq (Lit.str "control"))
  , groupBy := none, having := none }

/-- `nonexistent_field=value`. -/
def qNonexist : Query :=
  { select := none
  , whereClause := some (Expr.cmp ["nonexistent_field"] CompOp.eq (Lit.str "value"))
  , groupBy := none, having := none }

/-- `metadata.NonExistentField=value`. -/
def qMetaNonexist : Query :=
  { select := none
  , whereClause := some (Expr.cmp ["metadata","NonExistentField"] CompOp.eq (Lit.str "value"))
  , groupBy := none, having := none }

/-- `sub>999` (numeric comparison against string-valued subjects). -/
def qSubGt : Query :=
  { select := none
  , whereClause := some (Expr.cmp ["sub"] CompOp.gt (Lit.num 999))
  , groupBy := none, having := none }

/-- Two files of the same subject, for the SELECT DISTINCT collapse. -/
def dupIdx : DatasetIndex :=
  { files := [mkRec [("sub","01")] "x1", mkRec [("sub","01")] "x2"]
  , participants := [] }

/-- `SELECT DISTINCT sub`. -/
def qDistinctSub : Query :=
  { select := some (SelectClause.mk true [SelectItem.field ["sub"] none])
  , whereClause := none, groupBy := none, having := none }

/-! Helper lemmas about first-seen deduplication and partitioning. -/

theorem mem_addFirst {α : Type} [DecidableEq α] (acc : List α) (w v : α) :
    v ∈ addFirst acc w ↔ v ∈ acc ∨ v = w := by
  by_cases h : w ∈ acc
  · simp only [addFirst, if_pos h]
    exact ⟨Or.inl, fun hv => hv.elim id (fun he => he ▸ h)⟩
  · simp [addFirst, if_neg h]

theorem nodup_addFirst {α : Type} [DecidableEq α] (acc : List α) (w : α)
    (h : acc.Nodup) : (addFirst acc w).Nodup := by
  by_cases hw : w ∈ acc
  · simpa [addFirst, if_pos hw] using h
  · simp [addFirst, if_neg hw, List.nodup_append, h, hw]

theorem foldl_addFirst_mem {α : Type} [DecidableEq α] (l acc : List α) (v : α) :
    v ∈ l.foldl addFirst acc ↔ v ∈ acc ∨ v ∈ l := by
  induction l generalizing acc with
  | nil => simp
  | cons x l ih =>
      simp only [List.foldl_cons, ih, mem_addFirst, List.mem_cons]
      tauto

theorem foldl_addFirst_nodup {α : Type} [DecidableEq α] (l acc : List α)
    (h : acc.Nodup) : (l.foldl addFirst acc).Nodup := by
  induction l generalizing acc with
  | nil => simpa
  | cons x l ih => exact ih _ (nodup_addFirst _ _ h)

theorem foldl_addFirst_append {α : Type} [DecidableEq α] (l acc : List α) :
    ∃ t, l.foldl addFirst acc = acc ++ t ∧ t.Sublist l := by
  induction l generalizing acc with
  | nil => exact ⟨[], by simp⟩
  | cons x l ih =>
      by_cases h : x ∈ acc
      · obtain ⟨t, ht, hs⟩ := ih acc
        refine ⟨t, ?_, hs.cons x⟩
        simpa [addFirst, if_pos h] using ht
      · obtain ⟨t, ht, hs⟩ := ih (acc ++ [x])
        refine ⟨x :: t, ?_, hs.cons₂ x⟩
        simp only [List.foldl_cons, addFirst, if_neg h]
        rw [ht, List.append_assoc]
        rfl

theorem mem_firstSeen {α : Type} [DecidableEq α] (l : List α) (v : α) :
    v ∈ firstSeen l ↔ v ∈ l := by
  simp [firstSeen, foldl_addFirst_mem]

theorem nodup_firstSeen {α : Type} [DecidableEq α] (l : List α) :
    (firstSeen l).Nodup :=
  foldl_addFirst_nodup l [] List.nodup_nil

theorem firstSeen_sublist {α : Type} [DecidableEq α] (l : List α) :
    (firstSeen l).Sublist l := by
  obtain ⟨t, ht, hs⟩ := foldl_addFirst_append l []
  rw [firstSeen, ht]
  simpa using hs

theorem mem_partitionBy {α K : Type} [DecidableEq K] (f : α → K) (l : List α)
    (k : K) (g : List α) (h : (k, g) ∈ partitionBy f l) :
    k ∈ firstSeen (l.map f) ∧ g = l.filter (fun x => decide (f x = k)) := by
  simp only [partitionBy, List.mem_map] at h
  obtain ⟨k2, hk2, he⟩ := h
  rw [Prod.mk.injEq] at he
  obtain ⟨rfl, rfl⟩ := he
  exact ⟨hk2, rfl⟩

theorem partitionBy_covers {α K : Type} [DecidableEq K] (f : α → K)
    (l : List α) (x : α) (hx : x ∈ l) :
    ∃ g, (f x, g) ∈ partitionBy f l ∧ x ∈ g := by
  refine ⟨l.filter (fun y => decide (f y = f x)), ?_, ?_⟩
  · simp only [partitionBy, List.mem_map]
    exact ⟨f x, (mem_firstSeen _ _).2 (List.mem_map_of_mem f hx), rfl⟩
  · simp [List.mem_filter, hx]

theorem partitionBy_group_ne_nil {α K : Type} [DecidableEq K] (f : α → K)
    (l : List α) (k : K) (g : List α) (h : (k, g) ∈ partitionBy f l) :
    g ≠ [] := by
  obtain ⟨hk, rfl⟩ := mem_partitionBy f l k g h
  rw [mem_firstSeen] at hk
  obtain ⟨x, hx, rfl⟩ := List.mem_map.1 hk
  intro hnil
  have hmem : x ∈ l.filter (fun y => decide (f y = f x)) := by
    simp [List.mem_filter, hx]
  rw [hnil] at hmem
  cases hmem

theorem partitionBy_group_mem {α K : Type} [DecidableEq K] (f : α → K)
    (l : List α) (k : K) (g : List α) (h : (k, g) ∈ partitionBy f l) :
    ∀ x ∈ g, x ∈ l ∧ f x = k := by
  obtain ⟨_, rfl⟩ := mem_partitionBy f l k g h
  intro x hx
  rw [List.mem_filter] at hx
  exact ⟨hx.1, of_decide_eq_true hx.2⟩

theorem length_filter_add {α : Type} (p : α → Bool) (l : List α) :
    (l.filter p).length + (l.filter (fun x => !(p x))).length = l.length := by
  induction l with
  | nil => rfl
  | cons x l ih =>
      cases h : p x <;> simp [List.filter_cons, h] <;> omega

theorem sum_filter_lengths {α K : Type} [DecidableEq K] (f : α → K)
    (ks : List K) (l : List α) (hnd : ks.Nodup) (hcov : ∀ x ∈ l, f x ∈ ks) :
    (ks.map (fun k => (l.filter (fun x => decide (f x = k))).length)).sum = l.length := by
  induction ks generalizing l with
  | nil =>
      cases l with
      | nil => rfl
      | cons x xs => exact absurd (hcov x (List.mem_cons_self x xs)) (List.not_mem_nil _)
  | cons k ks ih =>
      rw [List.nodup_cons] at hnd
      obtain ⟨hk, hnd⟩ := hnd
      have hfix : ∀ k2 ∈ ks,
          (l.filter (fun x => !(decide (f x = k)))).filter (fun x => decide (f x = k2))
            = l.filter (fun x => decide (f x = k2)) := by
        intro k2 hk2
        rw [List.filter_filter]
        apply List.filter_congr
        intro x _
        by_cases hx : f x = k2
        · have hne : ¬ (k2 = k) := fun he => hk (he ▸ hk2)
          simp [hx, hne]
        · simp [hx]
      have hcov2 : ∀ x ∈ l.filter (fun x => !(decide (f x = k))), f x ∈ ks := by
        intro x hx
        rw [List.mem_filter] at hx
        have : ¬ (f x = k) := by simpa using hx.2
        rcases List.mem_cons.1 (hcov x hx.1) with hc | hc
        · exact absurd hc this
        · exact hc
      have hsum := ih (l.filter (fun x => !(decide (f x = k)))) hnd hcov2
      rw [List.map_cons, List.sum_cons]
      calc (l.filter (fun x => decide (f x = k))).length
            + (ks.map (fun k2 => (l.filter (fun x => decide (f x = k2))).length)).sum
      _ = (l.filter (fun x => decide (f x = k))).length
            + (ks.map (fun k2 => ((l.filter (fun x => !(decide (f x = k)))).filter
                (fun x => decide (f x = k2))).length)).sum := by
            congr 1
            apply congrArg
            apply List.map_congr_left
            intro k2 hk2
            rw [hfix k2 hk2]
      _ = (l.filter (fun x => decide (f x = k))).length
            + (l.filter (fun x => !(decide (f x = k)))).length := by rw [hsum]
      _ = l.length := length_filter_add _ l

theorem partitionBy_sum_lengths {α K : Type} [DecidableEq K] (f : α → K)
    (l : List α) :
    ((partitionBy f l).map (fun pr => pr.2.length)).sum = l.length := by
  unfold partitionBy
  rw [List.map_map]
  exact sum_filter_lengths f _ l (nodup_firstSeen _)
    (fun x hx => (mem_firstSeen _ _).2 (List.mem_map_of_mem f hx))

/-! Helper lemmas about rows and row lookup. -/

theorem lookupRow_cons_eq (k : String) (v : Value) (row : Row) :
    lookupRow ((k, v) :: row) k = some v := by
  simp [lookupRow, List.find?_cons]

theorem lookupRow_cons_ne (k : String) (v : Value) (row : Row) (key : String)
    (h : ¬ (k = key)) : lookupRow ((k, v) :: row) key = lookupRow row key := by
  simp [lookupRow, List.find?_cons, h]

theorem lookupRow_projectGrouped (idx : DatasetIndex) (items : List SelectItem)
    (gps : List (List String)) (recs : List FileRecord) (it : SelectItem)
    (hit : it ∈ items)
    (huniq : ∀ it2 ∈ items, itemKey it2 = itemKey it → it2 = it) :
    lookupRow (projectGrouped idx items gps recs) (itemKey it)
      = some (itemValue idx gps recs it) := by
  induction items with
  | nil => cases hit
  | cons i items ih =>
      rw [projectGrouped, List.map_cons]
      by_cases h : itemKey i = itemKey it
      · have he : i = it := huniq i (List.mem_cons_self i items) h
        subst he
        exact lookupRow_cons_eq _ _ _
      · rw [lookupRow_cons_ne _ _ _ _ h]
        have hit2 : it ∈ items := by
          rcases List.mem_cons.1 hit with he | hm
          · exact absurd (congrArg itemKey he.symm) h
          · exact hm
        exact ih hit2 (fun it2 hm hk => huniq it2 (List.mem_cons_of_mem i hm) hk)

theorem projectGrouped_keys (idx : DatasetIndex) (items : List SelectItem)
    (gps : List (List String)) (recs : List FileRecord) :
    (projectGrouped idx items gps recs).map (fun pr => pr.1) = items.map itemKey := by
  simp [projectGrouped]

/-! Helper lemmas about the distinct-non-null collection and auto-aggregation. -/

theorem distinctNonNull_nodup (vs : List Value) : (distinctNonNull vs).Nodup :=
  nodup_firstSeen _

theorem distinctNonNull_sublist (vs : List Value) :
    (distinctNonNull vs).Sublist vs :=
  (firstSeen_sublist _).trans (List.filter_sublist vs)

theorem mem_distinctNonNull (vs : List Value) (v : Value) :
    v ∈ distinctNonNull vs ↔ v ≠ Value.null ∧ v ∈ vs := by
  rw [distinctNonNull, mem_firstSeen, List.mem_filter]
  simp [and_comm]

/-! Helper lemmas unfolding the evaluator pipeline by query shape. -/

theorem firstSeen_nil {α : Type} [DecidableEq α] : firstSeen ([] : List α) = [] := rfl

theorem evaluate_grouped_no_having (idx : DatasetIndex) (q : Query)
    (hdist : (q.select.map (fun sel => sel.distinct)).getD false = false)
    (hgr : isGrouped q = true) (hh : q.having = none) :
    evaluate idx q = groupRows idx q := by
  rw [evaluate]
  simp only [hgr, if_true, hh, hdist, Bool.false_eq_true, if_false]

theorem evaluate_grouped_having (idx : DatasetIndex) (q : Query) (h : Expr)
    (hdist : (q.select.map (fun sel => sel.distinct)).getD false = false)
    (hgr : isGrouped q = true) (hh : q.having = some h) :
    evaluate idx q
      = (groupRows idx q).filter (fun row => evalWith (resolveRow row) h) := by
  rw [evaluate]
  simp only [hgr, if_true, hh, hdist, Bool.false_eq_true, if_false]

theorem evaluate_plain (idx : DatasetIndex) (q : Query)
    (hdist : (q.select.map (fun sel => sel.distinct)).getD false = false)
    (hgr : isGrouped q = false) :
    evaluate idx q
      = (filteredRecords idx q).map
          (projectPlain idx (plainColumns q (filteredRecords idx q))) := by
  rw [evaluate]
  simp only [hgr, Bool.false_eq_true, if_false, hdist]

theorem mem_groupRows (idx : DatasetIndex) (q : Query) (row : Row)
    (hrow : row ∈ groupRows idx q) :
    ∃ k recs,
      (k, recs) ∈ partitionBy (fun r => (q.groupBy.getD []).map (resolveField idx r))
          (filteredRecords idx q) ∧
      row = projectGrouped idx (groupedItems q) (q.groupBy.getD []) recs := by
  simp only [groupRows, List.mem_map] at hrow
  obtain ⟨pr, hpr, hre⟩ := hrow
  exact ⟨pr.1, pr.2, hpr, hre.symm⟩

theorem groupRows_eq_map (idx : DatasetIndex) (q : Query) :
    groupRows idx q
      = (partitionBy (fun r => (q.groupBy.getD []).map (resolveField idx r))
          (filteredRecords idx q)).map
          (fun pr => projectGrouped idx (groupedItems q) (q.groupBy.getD []) pr.2) :=
  rfl

theorem autoAgg_eq_null_iff (vs : List Value) :
    autoAgg vs = Value.null ↔ ∀ v ∈ vs, v = Value.null := by
  constructor
  · intro h v hv
    by_contra hne
    have hd : v ∈ distinctNonNull vs := (mem_distinctNonNull vs v).2 ⟨hne, hv⟩
    rcases he : distinctNonNull vs with _ | ⟨w, _ | ⟨u, t⟩⟩
    · rw [he] at hd; cases hd
    · rw [autoAgg, he] at h
      rw [he] at hd
      have : v = w := by simpa using hd
      subst this
      exact hne ((mem_distinctNonNull vs v).1 (he ▸ hd) |>.1 h |>.elim)
    · rw [autoAgg, he] at h
      cases h
  · intro h
    have hd : distinctNonNull vs = [] := by
      rcases he : distinctNonNull vs with _ | ⟨w, t⟩
      · rfl
      · have hw : w ∈ distinctNonNull vs := he ▸ List.mem_cons_self w t
        obtain ⟨hne, hm⟩ := (mem_distinctNonNull vs w).1 hw
        exact absurd (h w hm) hne
    rw [autoAgg, hd]

/-! The claims. -/

/-- C3: `f IN [v1, ..., vn]` holds for a record exactly when some list
element equals the record's value of `f` under the `=` rules, including the
numeric-to-zero-padded-string coercion; on the index with subjects "01"
through "04", both `sub IN [1, 2, 3]` and the mixed form `sub IN [01, 2, 03]`
select exactly the records whose sub is one of "01", "02", "03". -/
theorem claim_C3 :
    (∀ (idx : DatasetIndex) (r : FileRecord) (p : List String) (ls : List Lit),
        evalExpr idx r (Expr.inList p ls) = true
          ↔ ∃ l ∈ ls, eqSem (resolveField idx r p) l = true) ∧
    eqSem (Value.str "01") (Lit.num 1) = true ∧
    eqSem (Value.str "02") (Lit.num 2) = true ∧
    eqSem (Value.str "04") (Lit.num 4) = true ∧
    eqSem (Value.str "04") (Lit.num 1) = false ∧
    filteredRecords reservedIdx qInNums
      = [subRec "01" "s1", subRec "02" "s2", subRec "03" "s3"] ∧
    filteredRecords reservedIdx qInMixed
      = [subRec "01" "s1", subRec "02" "s2", subRec "03" "s3"] := by
  refine ⟨?_, by decide, by decide, by decide, by decide, by decide, by decide⟩
  intro idx r p ls
  by_cases h : resolveField idx r p = Value.null
  · rw [evalExpr, evalWith]
    simp [h, eqSem]
  · rw [evalExpr, evalWith]
    simp [h, List.any_eq_true]

/-- C4: a bare field in WHERE is an existence check, keeping exactly the
records whose field resolves to a non-null, non-empty value; on the
run/no-run dataset, `SELECT DISTINCT run` includes the null row which
`SELECT DISTINCT run WHERE run` excludes, and the non-null run values of
the two results are identical. -/
theorem claim_C4 :
    (∀ v : Value, truthy v = true
        ↔ v ≠ Value.null ∧ v ≠ Value.str "" ∧ v ≠ Value.list []) ∧
    (∀ (idx : DatasetIndex) (q : Query) (f : List String),
        q.whereClause = some (Expr.bare f) →
        filteredRecords idx q
          = idx.files.filter (fun r => truthy (resolveField idx r f))) ∧
    evaluate nullRunIdx qAllRuns
      = [[("run", Value.str "01")], [("run", Value.str "02")], [("run", Value.null)]] ∧
    evaluate nullRunIdx qNonNullRuns
      = [[("run", Value.str "01")], [("run", Value.str "02")]] ∧
    (evaluate nullRunIdx qAllRuns).filterMap (fun row => nonNullOpt (resolveRow row ["run"]))
      = (evaluate nullRunIdx qNonNullRuns).filterMap (fun row => nonNullOpt (resolveRow row ["run"])) := by
  refine ⟨?_, ?_, by decide, by decide, by decide⟩
  · intro v
    cases v with
    | null => simp [truthy]
    | str s =>
        by_cases h : s = "" <;> simp [truthy, h]
    | num n => simp [truthy]
    | list vs => cases vs <;> simp [truthy]
  · intro idx q f hw
    rw [filteredRecords, hw]
    rfl

/-- C3 witness at `WHERE run` on the run/no-run dataset. -/
theorem claim_C4_witness :
    qNonNullRuns.whereClause = some (Expr.bare ["run"]) ∧
    filteredRecords nullRunIdx qNonNullRuns
      = nullRunIdx.files.filter (fun r => truthy (resolveField nullRunIdx r ["run"])) :=
  ⟨rfl, claim_C4.2.1 nullRunIdx qNonNullRuns ["run"] rfl⟩

/-- C7: evaluation is total (every function below is a total Lean
definition); an entity name absent from a record and distinct from the
built-ins resolves to null, as does an absent metadata key; null on the
left falsifies every comparison; a WHERE that holds for no record makes any
query return the empty result; concretely `nonexistent_field=value`,
`metadata.NonExistentField=value` and `sub>999` all return no rows on the
four-subject index, the last because the numeric comparison 1 > 999 comes
out false rather than raising. -/
theorem claim_C7 :
    (∀ (idx : DatasetIndex) (r : FileRecord) (name : String),
        lookupStr r.entities name = none →
        name ≠ "filename" → name ≠ "filepath" → name ≠ "relative_path" →
        resolveField idx r [name] = Value.null) ∧
    (∀ (idx : DatasetIndex) (r : FileRecord) (x : String),
        lookupVal r.metadata x = none →
        resolveField idx r ["metadata", x] = Value.null) ∧
    (∀ (op : CompOp) (l : Lit), cmpSem op Value.null l = false) ∧
    (∀ (idx : DatasetIndex) (q : Query) (e : Expr), q.whereClause = some e →
        (∀ r ∈ idx.files, evalExpr idx r e = false) → evaluate idx q = []) ∧
    evaluate reservedIdx qNonexist = [] ∧
    evaluate reservedIdx qMetaNonexist = [] ∧
    evaluate reservedIdx qSubGt = [] ∧
    evalExpr reservedIdx (subRec "01" "s1")
        (Expr.cmp ["sub"] CompOp.gt (Lit.num 999)) = false := by
  refine ⟨?_, ?_, ?_, ?_, by decide, by decide, by decide, by decide⟩
  · intro idx r name hl h1 h2 h3
    simp [resolveField, h1, h2, h3, hl]
  · intro idx r x hl
    simp [resolveField, hl]
  · intro op l
    cases op <;> rfl
  · intro idx q e hw hall
    have hfil : filteredRecords idx q = [] := by
      rw [filteredRecords, hw, List.filter_eq_nil_iff]
      intro a ha
      simp [hall a ha]
    rw [evaluate]
    by_cases hg : isGrouped q
    · rw [if_pos hg]
      have hgr : groupRows idx q = [] := by
        rw [groupRows, hfil]
        rfl
      cases hh : q.having with
      | none => cases hd : (q.select.map (fun sel => sel.distinct)).getD false <;>
          simp [hgr, firstSeen_nil]
      | some h => cases hd : (q.select.map (fun sel => sel.distinct)).getD false <;>
          simp [hgr, firstSeen_nil]
    · rw [if_neg hg]
      cases hd : (q.select.map (fun sel => sel.distinct)).getD false <;>
        simp [hfil, firstSeen_nil]

/-- C7 witness at the `nonexistent_field=value` query over the four-subject
index, discharging the all-records-false hypothesis concretely. -/
theorem claim_C7_witness :
    qNonexist.whereClause
      = some (Expr.cmp ["nonexistent_field"] CompOp.eq (Lit.str "value")) ∧
    evaluate reservedIdx qNonexist = [] :=
  ⟨rfl, claim_C7.2.2.2.1 reservedIdx qNonexist
    (Expr.cmp ["nonexistent_field"] CompOp.eq (Lit.str "value")) rfl (by decide)⟩

/-- C8: after a namespace qualifier the parser accepts a keyword token as a
field segment, storing its canonical uppercase form; the participants
lookup is case-insensitive, so the stored `participants.GROUP` still reads
the `group` column: `SELECT participants.group` yields a
`participants.GROUP` column, and `WHERE participants.group=control`
selects exactly the records of subjects 01 and 03, the control subjects. -/
theorem claim_C8 :
    parseField [Token.ident "participants", Token.dot, Token.kw "GROUP"]
      = some (["participants", "GROUP"], []) ∧
    parseField [Token.kw "GROUP"] = none ∧
    (∀ (m : List (String × Value)) (x y : String),
        upStr x = upStr y → lookupValCI m x = lookupValCI m y) ∧
    lookupValCI [("group", Value.str "control")] "GROUP"
      = some (Value.str "control") ∧
    itemKey (SelectItem.field ["participants", "GROUP"] none)
      = "participants.GROUP" ∧
    evaluate reservedIdx qSelGroup =
      [ [("participants.GROUP", Value.str "control")]
      , [("participants.GROUP", Value.str "patient")]
      , [("participants.GROUP", Value.str "control")]
      , [("participants.GROUP", Value.str "patient")] ] ∧
    filteredRecords reservedIdx qWhereGroup = [subRec "01" "s1", subRec "03" "s3"] ∧
    evaluate reservedIdx qWhereGroup =
      [ [("sub", Value.str "01"), ("participants.GROUP", Value.str "control")]
      , [("sub", Value.str "03"), ("participants.GROUP", Value.str "control")] ] := by
  refine ⟨by decide, by decide, ?_, by decide, by decide, by decide, by decide, by decide⟩
  intro m x y h
  rw [lookupValCI, lookupValCI, h]

/-- C8 witness: the lowercase and uppercase spellings of the participants
column name drive the same lookup. -/
theorem claim_C8_witness :
    upStr "group" = upStr "GROUP" ∧
    lookupValCI [("group", Value.str "control")] "group"
      = lookupValCI [("group", Value.str "control")] "GROUP" :=
  ⟨by decide, claim_C8.2.2.1 [("group", Value.str "control")] "group" "GROUP" (by decide)⟩

/-- Comparing a number against a numeric literal with `<` is the integer
order (spec §4.3 (b): numeric comparison succeeds on two numbers). -/
theorem cmpSem_lt_num (a b : Int) :
    cmpSem CompOp.lt (Value.num a) (Lit.num b) = decide (a < b) := rfl

/-- Comparing a number against a numeric literal with `>` is the flipped
integer order. -/
theorem cmpSem_gt_num (a b : Int) :
    cmpSem CompOp.gt (Value.num a) (Lit.num b) = decide (b < a) := rfl

/-- The group row of a `SELECT sub, COUNT(*)` item list binds `count` to
the partition size. -/
theorem lookupRow_subCount (idx : DatasetIndex) (gps : List (List String))
    (recs : List FileRecord) :
    lookupRow (projectGrouped idx
        [SelectItem.field ["sub"] none, SelectItem.agg Agg.countStar none]
        gps recs) "count"
      = some (Value.num recs.length) := by
  rw [projectGrouped, List.map_cons, List.map_cons, List.map_nil]
  have h1 : itemKey (SelectItem.field ["sub"] none) = "sub" := rfl
  have h2 : itemKey (SelectItem.agg Agg.countStar none) = "count" := rfl
  rw [h1, h2, lookupRow_cons_ne _ _ _ _ (by decide), lookupRow_cons_eq]
  rfl

/-- C2: over any partition, `ARRAY_AGG(f WHERE c)` is the list of non-null
`f` values of exactly the partition records satisfying `c` (all records
when there is no inner WHERE); it is a sublist — hence a subsequence — of
the unconditional `ARRAY_AGG(f)` of the same partition, and it is empty
when no record of the partition satisfies `c`. -/
theorem claim_C2 (idx : DatasetIndex) (recs : List FileRecord)
    (p : List String) (c : Expr) (al : Option String)
    (gps : List (List String)) :
    itemValue idx gps recs (SelectItem.agg (Agg.arrayAgg p (some c)) al)
      = Value.list ((recs.filter (fun r => evalExpr idx r c)).filterMap
          (fun r => nonNullOpt (resolveField idx r p))) ∧
    itemValue idx gps recs (SelectItem.agg (Agg.arrayAgg p none) al)
      = Value.list (recs.filterMap (fun r => nonNullOpt (resolveField idx r p))) ∧
    (arrayAggVals idx recs p (some c)).Sublist (arrayAggVals idx recs p none) ∧
    ((∀ r ∈ recs, evalExpr idx r c = false) →
        arrayAggVals idx recs p (some c) = []) := by
  refine ⟨rfl, rfl, ?_, ?_⟩
  · exact (List.filter_sublist recs).filterMap _
  · intro h
    rw [arrayAggVals]
    have hemp : recs.filter (fun r => evalExpr idx r c) = [] := by
      rw [List.filter_eq_nil_iff]
      intro r hr
      simp [h r hr]
    rw [hemp]
    rfl

/-- C2 witness over the sub-01 QSM partition, with an inner condition no
record satisfies. -/
theorem claim_C2_witness :
    (∀ r ∈ (filteredRecords qsmIdx qsmQuery).take 4,
        evalExpr qsmIdx r (Expr.cmp ["part"] CompOp.eq (Lit.str "nope")) = false) ∧
    arrayAggVals qsmIdx ((filteredRecords qsmIdx qsmQuery).take 4) ["filename"]
        (some (Expr.cmp ["part"] CompOp.eq (Lit.str "nope"))) = [] :=
  ⟨by decide,
   (claim_C2 qsmIdx ((filteredRecords qsmIdx qsmQuery).take 4) ["filename"]
      (Expr.cmp ["part"] CompOp.eq (Lit.str "nope")) none []).2.2.2 (by decide)⟩

/-- C9 counterexample: with SELECT DISTINCT, two records surviving WHERE
produce a single output row, so a surviving record does not always produce
exactly one output row. -/
theorem claim_C9_counterexample :
    qDistinctSub.groupBy = none ∧
    isGrouped qDistinctSub = false ∧
    (filteredRecords dupIdx qDistinctSub).length = 2 ∧
    (evaluate dupIdx qDistinctSub).length = 1 := by
  refine ⟨rfl, by decide, by decide, by decide⟩

/-- C9 (amended): for every query with no GROUP BY, no aggregate in SELECT
and no SELECT DISTINCT, each record surviving WHERE produces exactly one
output row; rows of one query share the same column list — the SELECT
columns in SELECT order when SELECT is present, the discoverable columns
when it is absent — so a field not listed in SELECT does not appear. -/
theorem claim_C9 (idx : DatasetIndex) (q : Query)
    (hgr : isGrouped q = false)
    (hdist : (q.select.map (fun sel => sel.distinct)).getD false = false) :
    (evaluate idx q).length = (filteredRecords idx q).length ∧
    (∀ row ∈ evaluate idx q,
        row.map (fun pr => pr.1)
          = (plainColumns q (filteredRecords idx q)).map (fun c => c.1)) ∧
    (∀ sel, q.select = some sel →
        (plainColumns q (filteredRecords idx q)).map (fun c => c.1)
          = sel.items.map itemKey) ∧
    (q.select = none →
        (plainColumns q (filteredRecords idx q)).map (fun c => c.1)
          = discoveredColumns (filteredRecords idx q)) := by
  rw [evaluate_plain idx q hdist hgr]
  refine ⟨List.length_map _ _, ?_, ?_, ?_⟩
  · intro row hrow
    rw [List.mem_map] at hrow
    obtain ⟨r, hr, rfl⟩ := hrow
    simp [projectPlain]
  · intro sel hs
    rw [plainColumns, hs, List.map_map]
    apply List.map_congr_left
    intro it _
    cases it <;> rfl
  · intro hs
    rw [plainColumns, hs, List.map_map]
    exact List.map_id _

/-- C9 witness at the non-DISTINCT `SELECT sub, participants.group WHERE
participants.group=control` query. -/
theorem claim_C9_witness :
    isGrouped qWhereGroup = false ∧
    (evaluate reservedIdx qWhereGroup).length
      = (filteredRecords reservedIdx qWhereGroup).length :=
  ⟨by decide, (claim_C9 reservedIdx qWhereGroup (by decide) (by decide)).1⟩

/-- C6: HAVING is evaluated on each produced group row with the shared
operator semantics and retains exactly the rows where it holds;
`SELECT sub, COUNT(*) GROUP BY sub HAVING COUNT(*) > 2` returns only rows
carrying the columns sub and count with an integer count above 2, and
`HAVING COUNT(*) < 1` returns no rows on any dataset, the partitions being
non-empty. -/
theorem claim_C6 :
    (∀ (idx : DatasetIndex) (q : Query) (h : Expr),
        (q.select.map (fun sel => sel.distinct)).getD false = false →
        isGrouped q = true → q.having = some h →
        evaluate idx q
          = (groupRows idx q).filter (fun row => evalWith (resolveRow row) h)) ∧
    (∀ idx : DatasetIndex, evaluate idx qHavingLt1 = []) ∧
    (∀ (idx : DatasetIndex) (row : Row), row ∈ evaluate idx qHavingGt2 →
        row.map (fun pr => pr.1) = ["sub", "count"] ∧
        ∃ n : Int, lookupRow row "count" = some (Value.num n) ∧ 2 < n) ∧
    evaluate nullRunIdx qHavingGt2
      = [[("sub", Value.str "01"), ("count", Value.num 3)]] ∧
    evaluate nullRunIdx qHavingLt1 = [] := by
  refine ⟨?_, ?_, ?_, by decide, by decide⟩
  · intro idx q h hdist hgr hh
    exact evaluate_grouped_having idx q h hdist hgr hh
  · intro idx
    rw [evaluate_grouped_having idx qHavingLt1
      (Expr.cmp ["count"] CompOp.lt (Lit.num 1)) rfl (by decide) rfl]
    rw [List.filter_eq_nil_iff]
    intro row hrow
    obtain ⟨k, recs, hpart, rfl⟩ := mem_groupRows idx qHavingLt1 row hrow
    have hne : recs ≠ [] := partitionBy_group_ne_nil _ _ _ _ hpart
    have hlen : 0 < recs.length := List.length_pos.2 hne
    have hcount := lookupRow_subCount idx (qHavingLt1.groupBy.getD []) recs
    have hres : resolveRow (projectGrouped idx (groupedItems qHavingLt1)
        (qHavingLt1.groupBy.getD []) recs) ["count"] = Value.num recs.length := by
      rw [resolveRow]
      have hpk : pathKey ["count"] = "count" := rfl
      rw [hpk]
      have : groupedItems qHavingLt1
          = [SelectItem.field ["sub"] none, SelectItem.agg Agg.countStar none] := rfl
      rw [this, hcount]
      rfl
    show ¬ (evalWith _ _ = true)
    rw [evalWith]
    have : groupedItems qHavingLt1
        = [SelectItem.field ["sub"] none, SelectItem.agg Agg.countStar none] := rfl
    rw [this] at hres
    rw [this, hres, cmpSem_lt_num]
    simp only [decide_eq_true_eq]
    omega
  · intro idx row hrow
    rw [evaluate_grouped_having idx qHavingGt2
      (Expr.cmp ["count"] CompOp.gt (Lit.num 2)) rfl (by decide) rfl] at hrow
    rw [List.mem_filter] at hrow
    obtain ⟨hmem, hpred⟩ := hrow
    obtain ⟨k, recs, hpart, rfl⟩ := mem_groupRows idx qHavingGt2 row hmem
    have hitems : groupedItems qHavingGt2
        = [SelectItem.field ["sub"] none, SelectItem.agg Agg.countStar none] := rfl
    constructor
    · rw [projectGrouped_keys, hitems]
      rfl
    · have hcount := lookupRow_subCount idx (qHavingGt2.groupBy.getD []) recs
      refine ⟨recs.length, ?_, ?_⟩
      · rw [hitems, hcount]
      · rw [evalWith] at hpred
        have hres : resolveRow (projectGrouped idx (groupedItems qHavingGt2)
            (qHavingGt2.groupBy.getD []) recs) ["count"] = Value.num recs.length := by
          rw [resolveRow]
          have hpk : pathKey ["count"] = "count" := rfl
          rw [hpk, hitems, hcount]
          rfl
        rw [hres, cmpSem_gt_num] at hpred
        simpa using hpred

/-- C6 witness at the run/no-run dataset, whose sub-01 partition has three
files. -/
theorem claim_C6_witness :
    ([("sub", Value.str "01"), ("count", Value.num 3)]
        ∈ evaluate nullRunIdx qHavingGt2) ∧
    ∃ n : Int,
      lookupRow [("sub", Value.str "01"), ("count", Value.num 3)] "count"
        = some (Value.num n) ∧ 2 < n :=
  ⟨by decide,
   (claim_C6.2.2.1 nullRunIdx [("sub", Value.str "01"), ("count", Value.num 3)]
      (by decide)).2⟩

/-- C5: in a grouped query selecting an unaliased COUNT(*), every produced
group row's count equals the size of its partition, and the counts over all
rows (HAVING absent) sum to the number of records that matched WHERE;
grouping the six QSM files by sub, acq yields counts 4 and 2 over the six
matching records. -/
theorem claim_C5 (idx : DatasetIndex) (q : Query) (sel : SelectClause)
    (gps : List (List String))
    (hs : q.select = some sel) (hd : sel.distinct = false)
    (hg : q.groupBy = some gps) (hh : q.having = none)
    (hcount : SelectItem.agg Agg.countStar none ∈ sel.items)
    (huniq : ∀ it ∈ sel.items, itemKey it = "count"
        → it = SelectItem.agg Agg.countStar none) :
    (∀ row ∈ evaluate idx q, ∃ k recs,
        (k, recs) ∈ partitionBy (fun r => gps.map (resolveField idx r))
            (filteredRecords idx q) ∧
        recs ≠ [] ∧
        lookupRow row "count" = some (Value.num recs.length)) ∧
    ((evaluate idx q).map countOfRow).sum
      = ((filteredRecords idx q).length : Int) ∧
    (evaluate qsmIdx qsmQuery).map countOfRow = [4, 2] ∧
    (filteredRecords qsmIdx qsmQuery).length = 6 := by
  have hgr : isGrouped q = true := by
    rw [isGrouped, hg]
    rfl
  have hdist : (q.select.map (fun sel2 => sel2.distinct)).getD false = false := by
    rw [hs]
    simpa using hd
  have hgi : groupedItems q = sel.items := by
    rw [groupedItems, hs]
  have hgps : q.groupBy.getD [] = gps := by
    rw [hg]
    rfl
  have he : evaluate idx q = groupRows idx q :=
    evaluate_grouped_no_having idx q hdist hgr hh
  have hkey : itemKey (SelectItem.agg Agg.countStar none) = "count" := rfl
  have hlookup : ∀ (gps2 : List (List String)) (recs : List FileRecord),
      lookupRow (projectGrouped idx sel.items gps2 recs) "count"
        = some (Value.num recs.length) := by
    intro gps2 recs
    have := lookupRow_projectGrouped idx sel.items gps2 recs
      (SelectItem.agg Agg.countStar none) hcount
      (fun it2 hm hk => huniq it2 hm (hkey ▸ hk))
    rw [hkey] at this
    rw [this]
    rfl
  refine ⟨?_, ?_, by decide, by decide⟩
  · intro row hrow
    rw [he] at hrow
    obtain ⟨k, recs, hpart, rfl⟩ := mem_groupRows idx q row hrow
    rw [hgps] at hpart
    refine ⟨k, recs, hpart, partitionBy_group_ne_nil _ _ _ _ hpart, ?_⟩
    rw [hgi, hlookup]
  · rw [he, groupRows_eq_map, List.map_map]
    have hfun : (countOfRow ∘ fun pr : List Value × List FileRecord =>
        projectGrouped idx (groupedItems q) (q.groupBy.getD []) pr.2)
        = (fun pr : List Value × List FileRecord => ((pr.2.length : Nat) : Int)) := by
      funext pr
      simp only [Function.comp]
      rw [countOfRow, hgi, hlookup _ pr.2]
    rw [hfun,
      ← partitionBy_sum_lengths (fun r => (q.groupBy.getD []).map (resolveField idx r))
        (filteredRecords idx q),
      Nat.cast_list_sum, List.map_map]
    rfl

/-- C5 witness at the QSM query, whose SELECT carries the unaliased
COUNT(*) and no other item keyed `count`. -/
theorem claim_C5_witness :
    (SelectItem.agg Agg.countStar none ∈ qsmSel.items) ∧
    ((evaluate qsmIdx qsmQuery).map countOfRow).sum
      = ((filteredRecords qsmIdx qsmQuery).length : Int) :=
  ⟨by decide,
   (claim_C5 qsmIdx qsmQuery qsmSel [["sub"], ["acq"]] rfl rfl rfl rfl
      (by decide) (by decide)).2.1⟩

/-- C1: in a grouped query, a SELECT field that is neither grouped nor an
aggregate is auto-aggregated per partition: its column carries
`autoAgg` of the field's values over the partition's records, where the
distinct non-null values are collected without duplicates, in first-seen
order (a sublist of the value sequence containing exactly its non-null
values); exactly one such value is emitted as that scalar, several as the
list, and a partition whose records are all null for the field emits
null. -/
theorem claim_C1 (idx : DatasetIndex) (q : Query) (sel : SelectClause)
    (gps : List (List String)) (p : List String) (al : Option String)
    (hs : q.select = some sel) (hd : sel.distinct = false)
    (hg : q.groupBy = some gps) (hh : q.having = none)
    (hit : SelectItem.field p al ∈ sel.items) (hnp : p ∉ gps)
    (huniq : ∀ it2 ∈ sel.items,
        itemKey it2 = itemKey (SelectItem.field p al)
          → it2 = SelectItem.field p al) :
    ∀ row ∈ evaluate idx q, ∃ recs vs,
      recs ≠ [] ∧
      (∀ r ∈ recs, r ∈ filteredRecords idx q) ∧
      vs = recs.map (fun r => resolveField idx r p) ∧
      lookupRow row (itemKey (SelectItem.field p al)) = some (autoAgg vs) ∧
      (distinctNonNull vs).Nodup ∧
      (distinctNonNull vs).Sublist vs ∧
      (∀ v, v ∈ distinctNonNull vs ↔ v ≠ Value.null ∧ v ∈ vs) ∧
      (distinctNonNull vs = [] → autoAgg vs = Value.null) ∧
      (∀ v, distinctNonNull vs = [v] → autoAgg vs = v) ∧
      (∀ v w t, distinctNonNull vs = v :: w :: t
          → autoAgg vs = Value.list (distinctNonNull vs)) ∧
      (autoAgg vs = Value.null ↔ ∀ v ∈ vs, v = Value.null) := by
  have hgr : isGrouped q = true := by
    rw [isGrouped, hg]
    rfl
  have hdist : (q.select.map (fun sel2 => sel2.distinct)).getD false = false := by
    rw [hs]
    simpa using hd
  have hgi : groupedItems q = sel.items := by
    rw [groupedItems, hs]
  have hgps : q.groupBy.getD [] = gps := by
    rw [hg]
    rfl
  have he : evaluate idx q = groupRows idx q :=
    evaluate_grouped_no_having idx q hdist hgr hh
  intro row hrow
  rw [he] at hrow
  obtain ⟨k, recs, hpart, rfl⟩ := mem_groupRows idx q row hrow
  rw [hgps] at hpart
  refine ⟨recs, recs.map (fun r => resolveField idx r p),
    partitionBy_group_ne_nil _ _ _ _ hpart,
    fun r hr => (partitionBy_group_mem _ _ _ _ hpart r hr).1,
    rfl, ?_, distinctNonNull_nodup _, distinctNonNull_sublist _,
    fun v => mem_distinctNonNull _ v, ?_, ?_, ?_, autoAgg_eq_null_iff _⟩
  · rw [hgi, hgps]
    rw [lookupRow_projectGrouped idx sel.items gps recs
      (SelectItem.field p al) hit huniq]
    have hval : itemValue idx gps recs (SelectItem.field p al)
        = autoAgg (recs.map (fun r => resolveField idx r p)) := by
      simp only [itemValue, if_neg hnp]
    rw [hval]
  · intro hds
    rw [autoAgg, hds]
  · intro v hds
    rw [autoAgg, hds]
  · intro v w t hds
    rw [autoAgg, hds]

/-- C1 witness at the QSM query's `part` column over the sub-01 group row,
whose partition carries both parts, emitted as the two-element list. -/
theorem claim_C1_witness :
    (SelectItem.field ["part"] none ∈ qsmSel.items) ∧
    (["part"] ∉ [["sub"], ["acq"]]) ∧
    ∃ recs vs,
      recs ≠ [] ∧
      (∀ r ∈ recs, r ∈ filteredRecords qsmIdx qsmQuery) ∧
      vs = recs.map (fun r => resolveField qsmIdx r ["part"]) ∧
      lookupRow
        [ ("filename", Value.list [Value.str "m11", Value.str "p11", Value.str "m12", Value.str "p12"])
        , ("sub", Value.str "01"), ("acq", Value.null)
        , ("part", Value.list [Value.str "mag", Value.str "phase"])
        , ("echo", Value.list [Value.str "01", Value.str "02"])
        , ("count", Value.num 4) ]
        (itemKey (SelectItem.field ["part"] none)) = some (autoAgg vs) ∧
      (distinctNonNull vs).Nodup ∧
      (distinctNonNull vs).Sublist vs ∧
      (∀ v, v ∈ distinctNonNull vs ↔ v ≠ Value.null ∧ v ∈ vs) ∧
      (distinctNonNull vs = [] → autoAgg vs = Value.null) ∧
      (∀ v, distinctNonNull vs = [v] → autoAgg vs = v) ∧
      (∀ v w t, distinctNonNull vs = v :: w :: t
          → autoAgg vs = Value.list (distinctNonNull vs)) ∧
      (autoAgg vs = Value.null ↔ ∀ v ∈ vs, v = Value.null) :=
  ⟨by decide, by decide,
   claim_C1 qsmIdx qsmQuery qsmSel [["sub"], ["acq"]] ["part"] none
     rfl rfl rfl rfl (by decide) (by decide) (by decide)
     [ ("filename", Value.list [Value.str "m11", Value.str "p11", Value.str "m12", Value.str "p12"])
     , ("sub", Value.str "01"), ("acq", Value.null)
     , ("part", Value.list [Value.str "mag", Value.str "phase"])
     , ("echo", Value.list [Value.str "01", Value.str "02"])
     , ("count", Value.num 4) ]
     (by decide)⟩

/-- C10: a record lacking a GROUP BY field is not dropped: it lands in the
partition keyed by its tuple of group-field values, null components
included, every partition is accounted for in the record count, and
grouping the six QSM files by sub, acq yields exactly the two groups — the
four sub-01 files under a null acq with count 4, and the two sub-02 files
under acq "test" with count 2. -/
theorem claim_C10 :
    (∀ (idx : DatasetIndex) (q : Query) (r : FileRecord),
        r ∈ filteredRecords idx q →
        ∃ g, ((q.groupBy.getD []).map (resolveField idx r), g)
            ∈ partitionBy (fun r2 => (q.groupBy.getD []).map (resolveField idx r2))
                (filteredRecords idx q)
          ∧ r ∈ g) ∧
    (∀ (idx : DatasetIndex) (q : Query),
        ((partitionBy (fun r2 => (q.groupBy.getD []).map (resolveField idx r2))
            (filteredRecords idx q)).map (fun pr => pr.2.length)).sum
          = (filteredRecords idx q).length) ∧
    evaluate qsmIdx qsmQuery =
      [ [ ("filename", Value.list [Value.str "m11", Value.str "p11", Value.str "m12", Value.str "p12"])
        , ("sub", Value.str "01"), ("acq", Value.null)
        , ("part", Value.list [Value.str "mag", Value.str "phase"])
        , ("echo", Value.list [Value.str "01", Value.str "02"])
        , ("count", Value.num 4) ]
      , [ ("filename", Value.list [Value.str "m21", Value.str "p21"])
        , ("sub", Value.str "02"), ("acq", Value.str "test")
        , ("part", Value.list [Value.str "mag", Value.str "phase"])
        , ("echo", Value.str "01"), ("count", Value.num 2) ] ] := by
  refine ⟨?_, ?_, by decide⟩
  · intro idx q r hr
    exact partitionBy_covers _ (filteredRecords idx q) r hr
  · intro idx q
    exact partitionBy_sum_lengths _ (filteredRecords idx q)

/-- C10 witness at the first QSM file, which lacks the acq entity and is
grouped under the null acq key. -/
theorem claim_C10_witness :
    (mkRec [("sub","01"),("echo","01"),("part","mag"),("datatype","anat"),("suffix","MEGRE"),("extension",".nii")] "m11"
        ∈ filteredRecords qsmIdx qsmQuery) ∧
    ∃ g, ([Value.str "01", Value.null], g)
        ∈ partitionBy (fun r2 => (qsmQuery.groupBy.getD []).map (resolveField qsmIdx r2))
            (filteredRecords qsmIdx qsmQuery)
      ∧ mkRec [("sub","01"),("echo","01"),("part","mag"),("datatype","anat"),("suffix","MEGRE"),("extension",".nii")] "m11" ∈ g :=
  ⟨by decide,
   claim_C10.1 qsmIdx qsmQuery
     (mkRec [("sub","01"),("echo","01"),("part","mag"),("datatype","anat"),("suffix","MEGRE"),("extension",".nii")] "m11")
     (by decide)⟩

end BiqlSpec
